import Mathlib

/-!
Verification of the killer-queen game's rules engine against its
natural-language specification.  The definitions below are a shallow
embedding of the Rust systems in src/: pure functions mirror the bodies of
the Bevy systems, with entity ids as naturals, f32 coordinates as rationals,
and the ECS component store made explicit as record fields.
-/

namespace KillerQueen

/-- Team component from player.rs (two teams; names vary by snapshot,
player.rs uses Yellow and Purple). -/
inductive Team where
  | Yellow
  | Purple
deriving DecidableEq, Repr

/-- Direction component from player.rs. -/
inductive Direction where
  | Right
  | Left
deriving DecidableEq, Repr

/-- WinCondition enum from main.rs. -/
inductive WinCondition where
  | Military
  | Economic
  | Ship
deriving DecidableEq, Repr

/-- WinEvent from main.rs: winning team plus the condition that fired. -/
structure WinEvent where
  team : Team
  win_condition : WinCondition
deriving DecidableEq, Repr

/-- QueenDeaths resource from player.rs: per-team queen-death counters. -/
structure QueenDeaths where
  yellow_deaths : Int
  purple_deaths : Int
deriving DecidableEq, Repr

/-- BerriesCollected resource from berries.rs: per-team deposited-berry
counters. -/
structure BerriesCollected where
  yellow_berries : Int
  purple_berries : Int
deriving DecidableEq, Repr

/-- GameSettings resource from settings.rs (live-editable settings panel). -/
structure GameSettings where
  queen_lives : Int
  ship_speed : ℚ
  berries_to_win : Int
deriving DecidableEq, Repr

/-- Default for GameSettings from settings.rs. -/
def GameSettings.default : GameSettings :=
  { queen_lives := 3, ship_speed := 30, berries_to_win := 6 }

/-- The per-team counter of BerriesCollected selected by a team value,
as matched in put_berries_in_cells and check_for_berry_win. -/
def BerriesCollected.forTeam (c : BerriesCollected) : Team → Int
  | Team.Yellow => c.yellow_berries
  | Team.Purple => c.purple_berries

/-- Embedding of check_for_queen_death_win (player.rs:618-632): one tick of
the military win check.  The Rust body compares each death counter against
the literal 3; it does not read GameSettings. -/
def check_for_queen_death_win (queen_deaths : QueenDeaths) : List WinEvent :=
  (if queen_deaths.yellow_deaths ≥ 3 then
    [{ team := Team.Purple, win_condition := WinCondition.Military }]
   else []) ++
  (if queen_deaths.purple_deaths ≥ 3 then
    [{ team := Team.Yellow, win_condition := WinCondition.Military }]
   else [])

/-- Embedding of check_for_berry_win (berries.rs:340-358): one tick of the
economic win check against the configured berries_to_win threshold. -/
def check_for_berry_win (berries_collected : BerriesCollected)
    (game_settings : GameSettings) : List WinEvent :=
  (if berries_collected.yellow_berries ≥ game_settings.berries_to_win then
    [{ team := Team.Yellow, win_condition := WinCondition.Economic }]
   else []) ++
  (if berries_collected.purple_berries ≥ game_settings.berries_to_win then
    [{ team := Team.Purple, win_condition := WinCondition.Economic }]
   else [])

/-- Multi-tick run of the economy tracker: each tick first counts that
tick's deposits into the counters (put_berries_in_cells), then the win
check runs on the updated counters.  Returns the per-tick WinEvent lists. -/
def run_berry_ticks (c : BerriesCollected) (s : GameSettings) :
    List (Int × Int) → List (List WinEvent)
  | [] => []
  | (dy, dp) :: rest =>
    let c' : BerriesCollected :=
      { yellow_berries := c.yellow_berries + dy
        purple_berries := c.purple_berries + dp }
    check_for_berry_win c' s :: run_berry_ticks c' s rest

/-- Sprite and collider constants from player.rs. -/
def PLAYER_FLY_IMPULSE : ℚ := 55

/-- Collider width multiplier from player.rs. -/
def PLAYER_COLLIDER_WIDTH_MULTIPLIER : ℚ := 3 / 10

/-- Respawn delay constant from player.rs. -/
def RESPAWN_DELAY : ℚ := 2

/-- Worker render width from player.rs. -/
def WORKER_RENDER_WIDTH : ℚ := 40

/-- Worker render height from player.rs. -/
def WORKER_RENDER_HEIGHT : ℚ := 40

/-- Queen render width from player.rs. -/
def QUEEN_RENDER_WIDTH : ℚ := 60

/-- Queen render height from player.rs. -/
def QUEEN_RENDER_HEIGHT : ℚ := 60

/-- Gate promotion duration from gates.rs. -/
def GATE_TIME : ℚ := 1

/-- The component tuple players_attack queries for each player entity
(player.rs:395-411): entity id, translation, Player (gamepad), Team,
Has Wings, Has Berry, Direction, Sprite custom_size, Option RidingOnShip,
Has Queen, Has Invincible, and the pressed state of the Dive action. -/
structure PlayerC where
  id : Nat
  gamepad : Nat
  x : ℚ
  y : ℚ
  team : Team
  hasWings : Bool
  hasBerry : Bool
  dir : Direction
  spriteW : ℚ
  spriteH : ℚ
  ridingOnShip : Option Nat
  isQueen : Bool
  invincible : Bool
  divePressed : Bool
  gateTimer : Option ℚ
deriving DecidableEq, Repr

/-- Absolute value as f32 abs, kept as a plain conditional so that terms
evaluate by reduction. -/
def rabs (q : ℚ) : ℚ := if q < 0 then -q else q

/-- Vertical-collision classification from player.rs:428-439: half widths
come from the sprite size scaled by the collider width multiplier, half
heights from the sprite size alone. -/
def one_player_on_top (p1 p2 : PlayerC) : Bool :=
  decide ((rabs (p1.y - p2.y) -
      (p1.spriteH / 2 + p2.spriteH / 2)) >
    (rabs (p1.x - p2.x) -
      (p1.spriteW / 2 * PLAYER_COLLIDER_WIDTH_MULTIPLIER +
        p2.spriteW / 2 * PLAYER_COLLIDER_WIDTH_MULTIPLIER)))

/-- KnockBackEvent from player.rs. -/
structure KnockBackEvent where
  entity : Nat
  direction : Direction
deriving DecidableEq, Repr

/-- SpawnPlayerEvent from player.rs. -/
structure SpawnPlayerEvent where
  team : Team
  is_queen : Bool
  gamepad : Nat
  delay : ℚ
  start_invincible : Bool
deriving DecidableEq, Repr

/-- Outcome of the kill-selection block of players_attack
(player.rs:441-534): either no kill (with the knockback events sent on the
way) or a selected victim and killer. -/
inductive AttackResolution where
  | skip (knockbacks : List KnockBackEvent)
  | kill (victim killer : PlayerC)
deriving DecidableEq, Repr

/-- Kill-selection block of players_attack (player.rs:423-534), mirroring
the Rust control flow branch for branch.  The same-team guard comes first;
then the dispatch on the two Wings flags; vertical flier collisions pick
the higher-y player as killer; horizontal ones order the pair by x and
dispatch on diving state then facing; worker pairs only knock back and only
when horizontal. -/
def resolve_attack (p1 p2 : PlayerC) : AttackResolution :=
  if p1.team = p2.team then AttackResolution.skip []
  else
    match p1.hasWings, p2.hasWings with
    | true, true =>
      if one_player_on_top p1 p2 then
        if p1.y > p2.y then AttackResolution.kill p2 p1
        else AttackResolution.kill p1 p2
      else
        let lp := if p1.x < p2.x then p1 else p2
        let rp := if p1.x < p2.x then p2 else p1
        let knocks : List KnockBackEvent :=
          [{ entity := lp.id, direction := Direction.Left },
           { entity := rp.id, direction := Direction.Right }]
        match lp.divePressed, rp.divePressed with
        | true, true => AttackResolution.skip knocks
        | true, false => AttackResolution.kill lp rp
        | false, true => AttackResolution.kill rp lp
        | false, false =>
          match lp.dir, rp.dir with
          | Direction.Right, Direction.Right => AttackResolution.kill rp lp
          | Direction.Left, Direction.Left => AttackResolution.kill lp rp
          | Direction.Right, Direction.Left => AttackResolution.skip knocks
          | Direction.Left, Direction.Right => AttackResolution.skip knocks
    | true, false => AttackResolution.kill p2 p1
    | false, true => AttackResolution.kill p1 p2
    | false, false =>
      if one_player_on_top p1 p2 then AttackResolution.skip []
      else
        let lp := if p1.x < p2.x then p1 else p2
        let rp := if p1.x < p2.x then p2 else p1
        AttackResolution.skip
          [{ entity := lp.id, direction := Direction.Left },
           { entity := rp.id, direction := Direction.Right }]

/-- Observable effects of players_attack for one collision-start event:
knockback events sent, the despawned entity (if any), the queen-death
counter deltas, the berry dropped by remove_player, the ship whose Team
component remove_player removed, and the scheduled SpawnPlayerEvents. -/
structure AttackEffects where
  knockbacks : List KnockBackEvent := []
  despawned : Option Nat := none
  yellow_deaths_delta : Int := 0
  purple_deaths_delta : Int := 0
  droppedBerryAt : Option (ℚ × ℚ) := none
  shipTeamRemoved : Option Nat := none
  spawnEvents : List SpawnPlayerEvent := []
deriving DecidableEq, Repr

/-- Effects of the confirmed-kill tail of players_attack
(player.rs:536-574): the invincibility guard drops the event before any
mutation; otherwise the killed player's own team's queen-death counter
increments when the victim has the Queen marker, remove_player despawns the
victim (dropping a held berry at its position and releasing its ship's Team
component), and a SpawnPlayerEvent is scheduled with the victim's team,
Queen status, and gamepad, the fixed respawn delay, and start_invincible
set. -/
def kill_effects (victim : PlayerC) : AttackEffects :=
  if victim.invincible then {}
  else
    { despawned := some victim.id
      yellow_deaths_delta :=
        if victim.isQueen && (victim.team == Team.Yellow) then 1 else 0
      purple_deaths_delta :=
        if victim.isQueen && (victim.team == Team.Purple) then 1 else 0
      droppedBerryAt :=
        if victim.hasBerry then some (victim.x, victim.y) else none
      shipTeamRemoved := victim.ridingOnShip
      spawnEvents :=
        [{ team := victim.team
           is_queen := victim.isQueen
           gamepad := victim.gamepad
           delay := RESPAWN_DELAY
           start_invincible := true }] }

/-- One collision-start event of players_attack end to end: selection then
kill effects. -/
def players_attack_event (p1 p2 : PlayerC) : AttackEffects :=
  match resolve_attack p1 p2 with
  | AttackResolution.skip ks => { knockbacks := ks }
  | AttackResolution.kill v _ => kill_effects v

/-- Embedding of apply_knockbacks (player.rs:580-593): each event adds a
horizontal impulse of the fly-impulse constant, signed by direction, to the
named entity. -/
def apply_knockbacks (evs : List KnockBackEvent) (impulse : Nat → ℚ) :
    Nat → ℚ :=
  match evs with
  | [] => impulse
  | ev :: rest =>
    apply_knockbacks rest (fun e =>
      if e = ev.entity then
        impulse e + PLAYER_FLY_IMPULSE *
          (match ev.direction with
           | Direction.Right => 1
           | Direction.Left => -1)
      else impulse e)

/-- Linear interpolation as egui's lerp, used by progress_gate_timers to
grow the sprite. -/
def lerp (lo hi t : ℚ) : ℚ := lo + t * (hi - lo)

/-- Whether the gate's queried (pre-contact) Team component lets the
touching player interact, per the continue guard in
check_worker_gate_collisions (gates.rs:116-120): an unclaimed gate matches
everyone, a claimed one only its own team. -/
def gate_matches (gate_team : Option Team) (t : Team) : Bool :=
  match gate_team with
  | none => true
  | some gt => gt == t

/-- CollisionEvent::Started branch of check_worker_gate_collisions
(gates.rs:106-129) for one gate/player pair: a queen always inserts her
Team onto the gate (this runs before the ownership guard); the guard then
compares the player's team against the gate's queried (pre-insert) team,
and on a match a berry-carrying player with no GateTimer gets a fresh
timer.  Returns the gate's new team and the updated player. -/
def gate_collision_started (gate_team : Option Team) (p : PlayerC) :
    Option Team × PlayerC :=
  let gate_team' := if p.isQueen then some p.team else gate_team
  let p' :=
    if gate_matches gate_team p.team then
      if p.gateTimer.isNone && p.hasBerry then { p with gateTimer := some 0 }
      else p
    else p
  (gate_team', p')

/-- CollisionEvent::Stopped branch of check_worker_gate_collisions
(gates.rs:130-149): a berry-carrying player with a GateTimer loses the
timer and has its sprite reset to worker dimensions. -/
def gate_collision_stopped (p : PlayerC) : PlayerC :=
  if p.hasBerry && p.gateTimer.isSome then
    { p with gateTimer := none
             spriteW := WORKER_RENDER_WIDTH
             spriteH := WORKER_RENDER_HEIGHT }
  else p

/-- Completion branch of progress_gate_timers (gates.rs:168-190): sprite
resized to queen dimensions, translation raised to keep the feet planted,
GateTimer and Berry removed, Wings inserted.  No Queen marker is
inserted. -/
def promote_at_gate (p : PlayerC) : PlayerC :=
  { p with spriteW := QUEEN_RENDER_WIDTH
           spriteH := QUEEN_RENDER_HEIGHT
           y := p.y + (QUEEN_RENDER_HEIGHT - WORKER_RENDER_HEIGHT) / 2
           gateTimer := none
           hasBerry := false
           hasWings := true }

/-- One tick of progress_gate_timers (gates.rs:154-207) for one player:
players without a timer are not in the query; otherwise the timer advances
by the tick's delta (a Once timer clamps elapsed at its duration), the
finished timer triggers promotion, and an unfinished one grows the sprite
linearly with elapsed/total. -/
def progress_gate_timer (dt : ℚ) (p : PlayerC) : PlayerC :=
  match p.gateTimer with
  | none => p
  | some e =>
    let e' := min (e + dt) GATE_TIME
    if e' ≥ GATE_TIME then promote_at_gate { p with gateTimer := some e' }
    else
      { p with gateTimer := some e'
               spriteW := lerp WORKER_RENDER_WIDTH QUEEN_RENDER_WIDTH
                 (e' / GATE_TIME)
               spriteH := lerp WORKER_RENDER_HEIGHT QUEEN_RENDER_HEIGHT
                 (e' / GATE_TIME) }

/-- Several ticks of progress_gate_timers applied to one player. -/
def progress_gate_timers_run (dts : List ℚ) (p : PlayerC) : PlayerC :=
  dts.foldl (fun q dt => progress_gate_timer dt q) p

/-- Window constants from main.rs. -/
def WINDOW_WIDTH : ℚ := 1920

/-- Window height from main.rs. -/
def WINDOW_HEIGHT : ℚ := 1016

/-- Top of the window from main.rs. -/
def WINDOW_TOP_Y : ℚ := WINDOW_HEIGHT / 2

/-- Player entity constructed by spawn_players (player.rs:678-803) when a
delayed spawner expires: Wings and Queen are inserted exactly when the
event's is_queen flag holds (player.rs:791-794), and Invincible when
start_invincible holds. -/
def spawn_player (ev : SpawnPlayerEvent) (id : Nat) : PlayerC :=
  { id := id
    gamepad := ev.gamepad
    x := match ev.team with
      | Team.Yellow => -(WINDOW_WIDTH / 20)
      | Team.Purple => WINDOW_WIDTH / 20
    y := WINDOW_TOP_Y - WINDOW_HEIGHT / 9
    team := ev.team
    hasWings := ev.is_queen
    hasBerry := false
    dir := match ev.team with
      | Team.Yellow => Direction.Left
      | Team.Purple => Direction.Right
    spriteW := if ev.is_queen then QUEEN_RENDER_WIDTH else WORKER_RENDER_WIDTH
    spriteH := if ev.is_queen then QUEEN_RENDER_HEIGHT else WORKER_RENDER_HEIGHT
    ridingOnShip := none
    isQueen := ev.is_queen
    invincible := ev.start_invincible
    divePressed := false
    gateTimer := none }

/-- Tick-start snapshot of the two queries of put_berries_in_cells
(berries.rs:295-301): empty_berry_cells maps an entity to its Team when it
is a BerryCell without a Berry, and berry_worker maps an entity to its Team
when it is a Player holding a Berry and without Wings.  Component inserts
and removals go through deferred commands, so both snapshots stay fixed
for the whole tick. -/
structure BerryTickEnv where
  emptyCellTeam : Nat → Option Team
  berryWorkerTeam : Nat → Option Team

/-- One recorded deposit of put_berries_in_cells: the depositing player
(whose held Berry is removed), the cell (which receives a Berry), and the
team whose counter is incremented. -/
structure Deposit where
  player : Nat
  cell : Nat
  team : Team
deriving DecidableEq, Repr

/-- One candidate (cell, player) ordering inside put_berries_in_cells
(berries.rs:306-333): if the first entity is an empty cell and the second a
berry-holding wingless player not yet in the per-tick placed set, and their
teams match, the deposit is recorded and the player added to the set. -/
def put_berries_step (env : BerryTickEnv) (placed : List Nat)
    (cellEnt playerEnt : Nat) : List Nat × Option Deposit :=
  match env.emptyCellTeam cellEnt with
  | none => (placed, none)
  | some ct =>
    match env.berryWorkerTeam playerEnt with
    | none => (placed, none)
    | some pt =>
      if playerEnt ∈ placed then (placed, none)
      else if ct = pt then
        (playerEnt :: placed, some { player := playerEnt, cell := cellEnt, team := pt })
      else (placed, none)

/-- One collision-start event of put_berries_in_cells: both orderings of
the entity pair are tried, threading the placed set. -/
def put_berries_event (env : BerryTickEnv) (placed : List Nat)
    (e : Nat × Nat) : List Nat × List Deposit :=
  let r1 := put_berries_step env placed e.1 e.2
  let r2 := put_berries_step env r1.1 e.2 e.1
  (r2.1, r1.2.toList ++ r2.2.toList)

/-- Fold of put_berries_in_cells over the tick's collision-start events,
threading the per-tick placed set and collecting the deposits. -/
def put_berries_go (env : BerryTickEnv) (placed : List Nat) :
    List (Nat × Nat) → List Deposit
  | [] => []
  | e :: rest =>
    let r := put_berries_event env placed e
    r.2 ++ put_berries_go env r.1 rest

/-- The placed set after the fold of put_berries_in_cells. -/
def put_berries_placed (env : BerryTickEnv) (placed : List Nat) :
    List (Nat × Nat) → List Nat
  | [] => placed
  | e :: rest => put_berries_placed env (put_berries_event env placed e).1 rest

/-- Embedding of put_berries_in_cells (berries.rs:295-338) for one tick:
the placed set starts empty and the deposits of all events are
collected. -/
def put_berries_in_cells (env : BerryTickEnv)
    (events : List (Nat × Nat)) : List Deposit :=
  put_berries_go env [] events

/-- Indicator of membership of a player in the per-tick placed set. -/
def playerMark (A : Nat) (placed : List Nat) : Nat :=
  if A ∈ placed then 1 else 0

/-- Concrete berry tick environment for witnesses: entity 2 is an empty
Yellow cell, entity 1 a Yellow worker holding a berry. -/
def sampleBerryEnv : BerryTickEnv :=
  { emptyCellTeam := fun n => if n = 2 then some Team.Yellow else none
    berryWorkerTeam := fun n => if n = 1 then some Team.Yellow else none }

/-- Rider and ship-ownership components of the ship subsystem: riders maps
a player entity to the ship of its RidingOnShip component, shipTeam maps a
ship entity to its optional Team component.  Ship entities are spawned once
at startup and never despawned. -/
structure ShipWorld where
  riders : Nat → Option Nat
  shipTeam : Nat → Option Team

/-- Pointwise update of a component map. -/
def updateFn {α : Type} (f : Nat → α) (k : Nat) (v : α) : Nat → α :=
  fun n => if n = k then v else f n

/-- Fold of get_on_ship over a tick's (worker, ship) collision events: the
unclaimed test reads the query snapshot taken at the start of the tick
(the Team insert goes through deferred commands), while the rider and
ownership inserts accumulate. -/
def get_on_ship_go (teamOf : Nat → Team) (snapshot : Nat → Option Team)
    (acc : ShipWorld) : List (Nat × Nat) → ShipWorld
  | [] => acc
  | ev :: rest =>
    if snapshot ev.2 = none then
      get_on_ship_go teamOf snapshot
        { riders := updateFn acc.riders ev.1 (some ev.2)
          shipTeam := updateFn acc.shipTeam ev.2 (some (teamOf ev.1)) } rest
    else get_on_ship_go teamOf snapshot acc rest

/-- Embedding of get_on_ship (ship.rs:94-129) for one tick: every event
with a worker touching a ship that was unclaimed at the start of the tick
boards that worker (RidingOnShip inserted, RigidBody fixed) and claims the
ship with the worker's team; events against claimed ships only knock the
worker back. -/
def get_on_ship_tick (teamOf : Nat → Team) (w : ShipWorld)
    (events : List (Nat × Nat)) : ShipWorld :=
  get_on_ship_go teamOf w.shipTeam w events

/-- Embedding of jump_off_ship (ship.rs:148-167) for one rider pressing
Jump: RidingOnShip is removed from the worker and Team from its ship, in
the same command flush. -/
def jump_off_ship (w : ShipWorld) (p : Nat) : ShipWorld :=
  match w.riders p with
  | some s =>
    { riders := updateFn w.riders p none
      shipTeam := updateFn w.shipTeam s none }
  | none => w

/-- Ship-relevant part of remove_player (join.rs:304-327), called on kill
and on disconnect: the player entity is despawned (removing its
RidingOnShip) and, if it was riding, its ship's Team component is removed
in the same flush. -/
def remove_player_ship (w : ShipWorld) (p : Nat) : ShipWorld :=
  { riders := updateFn w.riders p none
    shipTeam :=
      match w.riders p with
      | some s => updateFn w.shipTeam s none
      | none => w.shipTeam }

/-- move_ship (ship.rs:131-146) unwraps, for every rider, the lookup of its
ship in a query requiring the Team component; the unwrap succeeds exactly
when every rider references a team-owning ship. -/
def move_ship_lookup_safe (w : ShipWorld) : Prop :=
  ∀ p s, w.riders p = some s → w.shipTeam s ≠ none

/-- Invariant of the ship subsystem: every rider references a team-owning
ship, and no two riders share a ship. -/
def ship_rider_inv (w : ShipWorld) : Prop :=
  (∀ p s, w.riders p = some s → w.shipTeam s ≠ none) ∧
  (∀ p q s, w.riders p = some s → w.riders q = some s → p = q)

/-- One transition of the ship subsystem: a tick of boarding events, one
rider jumping off, or one rider removed by kill/disconnect. -/
inductive ShipStep where
  | board (teamOf : Nat → Team) (events : List (Nat × Nat))
  | jump (p : Nat)
  | remove (p : Nat)

/-- Application of a ship-subsystem transition. -/
def ShipStep.apply (w : ShipWorld) : ShipStep → ShipWorld
  | ShipStep.board teamOf evs => get_on_ship_tick teamOf w evs
  | ShipStep.jump p => jump_off_ship w p
  | ShipStep.remove p => remove_player_ship w p

/-- Side condition under which a transition is single-boarding: a boarding
tick touches each ship in at most one event. -/
def ShipStep.distinctShips : ShipStep → Prop
  | ShipStep.board _ evs => evs.Pairwise (fun a b => a.2 ≠ b.2)
  | ShipStep.jump _ => True
  | ShipStep.remove _ => True

/-- Concrete Purple queen used in witnesses and counterexamples. -/
def purpleQueen : PlayerC :=
  { id := 7, gamepad := 1, x := 0, y := 0, team := Team.Purple
    hasWings := true, hasBerry := false, dir := Direction.Right
    spriteW := QUEEN_RENDER_WIDTH, spriteH := QUEEN_RENDER_HEIGHT
    ridingOnShip := none, isQueen := true, invincible := false
    divePressed := false, gateTimer := none }

/-- Concrete invincible Yellow worker used in witnesses. -/
def invincibleYellowWorker : PlayerC :=
  { id := 3, gamepad := 2, x := 5, y := 0, team := Team.Yellow
    hasWings := false, hasBerry := false, dir := Direction.Left
    spriteW := WORKER_RENDER_WIDTH, spriteH := WORKER_RENDER_HEIGHT
    ridingOnShip := none, isQueen := false, invincible := true
    divePressed := false, gateTimer := none }

/-- Concrete Yellow worker holding a berry, used in witnesses. -/
def yellowBerryWorker : PlayerC :=
  { id := 4, gamepad := 3, x := -5, y := 0, team := Team.Yellow
    hasWings := false, hasBerry := true, dir := Direction.Right
    spriteW := WORKER_RENDER_WIDTH, spriteH := WORKER_RENDER_HEIGHT
    ridingOnShip := none, isQueen := false, invincible := false
    divePressed := false, gateTimer := none }

/-- Concrete Yellow queen strictly above purpleQueen, overlapping enough
for the vertical classification. -/
def highYellowQueen : PlayerC :=
  { purpleQueen with id := 8, team := Team.Yellow, y := 50 }

/-- Concrete Yellow queen to the right of purpleQueen at the same height,
facing Left. -/
def rightYellowQueen : PlayerC :=
  { purpleQueen with
    id := 8
    team := Team.Yellow
    x := 10
    dir := Direction.Left }

/-- C1: the military win check ignores the queen-lives setting: with the
slider raised to 5 and only 3 yellow queen deaths, a Military WinEvent for
Purple is still emitted, although the counter has not reached the configured
limit.  (check_for_queen_death_win takes no GameSettings argument at all,
mirroring the Rust system, whose threshold is the literal 3.) -/
theorem check_for_queen_death_win_ignores_setting :
    let s : GameSettings := { GameSettings.default with queen_lives := 5 }
    let d : QueenDeaths := { yellow_deaths := 3, purple_deaths := 0 }
    { team := Team.Purple, win_condition := WinCondition.Military } ∈
      check_for_queen_death_win d ∧
    d.yellow_deaths < s.queen_lives := by
  constructor
  · decide
  · decide

/-- C2 (counterexample): gate ownership is not immutable after the first
claim: a Purple queen touching a gate already owned by Yellow overwrites
the owner with Purple, because the queen's Team insert runs before the
ownership guard in check_worker_gate_collisions. -/
theorem gate_claim_overwritten_by_opposing_queen :
    (gate_collision_started (some Team.Yellow) purpleQueen).1 =
        some Team.Purple ∧
      (some Team.Purple : Option Team) ≠ some Team.Yellow := by
  exact ⟨rfl, by decide⟩

/-- C2 (amended): a gate contact sets the gate's ownership to the touching
player's team exactly when that player is a queen (re-claiming gates owned
by either team) and leaves it unchanged otherwise; the promotion
interaction — inserting a fresh GateTimer — happens exactly when the gate's
pre-contact owner is absent or matches the player's team and the player
carries a berry and has no timer yet. -/
theorem gate_collision_started_spec (gt : Option Team) (p : PlayerC) :
    (gate_collision_started gt p).1 =
      (if p.isQueen then some p.team else gt) ∧
    (gate_collision_started gt p).2 =
      (if gate_matches gt p.team && (p.gateTimer.isNone && p.hasBerry) then
        { p with gateTimer := some 0 }
       else p) := by
  refine ⟨rfl, ?_⟩
  unfold gate_collision_started
  cases h1 : gate_matches gt p.team <;>
    cases h2 : p.gateTimer.isNone && p.hasBerry <;>
      simp [h1, h2]

/-- C8 (counterexample): with berries_to_win set to 1, a run where Yellow's
only deposit is counted on the first tick emits the Economic WinEvent for
Yellow again on the second tick, which has no deposit at all: the win check
re-fires every tick while the counter stays at or above the threshold, so
the event is not emitted exactly once. -/
theorem berry_win_event_reemitted :
    run_berry_ticks { yellow_berries := 0, purple_berries := 0 }
        { GameSettings.default with berries_to_win := 1 } [(1, 0), (0, 0)] =
      [[{ team := Team.Yellow, win_condition := WinCondition.Economic }],
       [{ team := Team.Yellow, win_condition := WinCondition.Economic }]] := by
  decide

/-- C8 (amended): on every tick, check_for_berry_win emits an Economic
WinEvent for a team iff that team's deposited-berry counter has reached
berries_to_win; in particular no event is emitted while the counter is at
most N−1, the first emission happens on the tick the Nth deposit is
counted, and the emission repeats on each later tick while the counter
stays at or above N. -/
theorem check_for_berry_win_iff_threshold (c : BerriesCollected)
    (s : GameSettings) (t : Team) :
    ({ team := t, win_condition := WinCondition.Economic } : WinEvent) ∈
        check_for_berry_win c s ↔
      c.forTeam t ≥ s.berries_to_win := by
  cases t <;>
    by_cases h1 : c.yellow_berries ≥ s.berries_to_win <;>
      by_cases h2 : c.purple_berries ≥ s.berries_to_win <;>
        simp [check_for_berry_win, BerriesCollected.forTeam, h1, h2]

/-- C4: when the kill target selected by the combat engine carries an
active Invincible component, the collision-start event is dropped with no
state change at all: the effects record equals the empty one — no
knockback, no despawn, no queen-death increment, no berry drop, no ship
release, and no SpawnPlayerEvent. -/
theorem invincible_target_event_dropped (p1 p2 v k : PlayerC)
    (hres : resolve_attack p1 p2 = AttackResolution.kill v k)
    (hinv : v.invincible = true) :
    players_attack_event p1 p2 = ({} : AttackEffects) := by
  unfold players_attack_event
  rw [hres]
  simp [kill_effects, hinv]

/-- Witness for C4: a Purple queen colliding with an invincible Yellow
worker selects the worker as the kill target, and the event has no
effect. -/
theorem invincible_target_event_dropped_witness :
    players_attack_event purpleQueen invincibleYellowWorker =
      ({} : AttackEffects) :=
  invincible_target_event_dropped purpleQueen invincibleYellowWorker
    invincibleYellowWorker purpleQueen (by decide) (by decide)

/-- C3: completing gate promotion inserts Wings but never the Queen marker;
killing a gate-promoted flier therefore increments no queen-death counter,
and the SpawnPlayerEvent scheduled for it has is_queen = false; the Queen
marker is inserted by the spawn path exactly when the event's is_queen
flag holds. -/
theorem gate_promotion_never_inserts_queen (p : PlayerC)
    (hq : p.isQueen = false) (hinv : p.invincible = false) :
    (promote_at_gate p).hasWings = true ∧
    (promote_at_gate p).isQueen = false ∧
    (kill_effects (promote_at_gate p)).yellow_deaths_delta = 0 ∧
    (kill_effects (promote_at_gate p)).purple_deaths_delta = 0 ∧
    (kill_effects (promote_at_gate p)).spawnEvents =
      [{ team := p.team, is_queen := false, gamepad := p.gamepad
         delay := RESPAWN_DELAY, start_invincible := true }] ∧
    (∀ (ev : SpawnPlayerEvent) (id : Nat),
      (spawn_player ev id).isQueen = ev.is_queen ∧
      (spawn_player ev id).hasWings = ev.is_queen) := by
  refine ⟨rfl, by simp [promote_at_gate, hq], ?_, ?_, ?_, ?_⟩
  · simp [kill_effects, promote_at_gate, hq, hinv]
  · simp [kill_effects, promote_at_gate, hq, hinv]
  · simp [kill_effects, promote_at_gate, hq, hinv]
  · intro ev id
    exact ⟨rfl, rfl⟩

/-- Witness for C3: promoting the concrete berry-carrying Yellow worker
yields a winged non-queen whose death would increment no counter. -/
theorem gate_promotion_never_inserts_queen_witness :
    (promote_at_gate yellowBerryWorker).hasWings = true ∧
    (promote_at_gate yellowBerryWorker).isQueen = false ∧
    (kill_effects (promote_at_gate yellowBerryWorker)).yellow_deaths_delta = 0 ∧
    (kill_effects (promote_at_gate yellowBerryWorker)).purple_deaths_delta = 0 ∧
    (kill_effects (promote_at_gate yellowBerryWorker)).spawnEvents =
      [{ team := yellowBerryWorker.team, is_queen := false
         gamepad := yellowBerryWorker.gamepad
         delay := RESPAWN_DELAY, start_invincible := true }] ∧
    (∀ (ev : SpawnPlayerEvent) (id : Nat),
      (spawn_player ev id).isQueen = ev.is_queen ∧
      (spawn_player ev id).hasWings = ev.is_queen) :=
  gate_promotion_never_inserts_queen yellowBerryWorker (by decide) (by decide)

/-- The conditional absolute value agrees with the lattice one. -/
theorem rabs_eq_abs (q : ℚ) : rabs q = |q| := by
  unfold rabs
  rcases lt_or_ge q 0 with h | h
  · rw [if_pos h, abs_of_neg h]
  · rw [if_neg (not_lt.mpr h), abs_of_nonneg h]

/-- The vertical-collision classification does not depend on the order of
the two players in the collision event. -/
theorem one_player_on_top_comm (p1 p2 : PlayerC) :
    one_player_on_top p1 p2 = one_player_on_top p2 p1 := by
  unfold one_player_on_top
  rw [decide_eq_decide]
  rw [rabs_eq_abs, rabs_eq_abs, rabs_eq_abs, rabs_eq_abs]
  rw [abs_sub_comm p1.y p2.y, abs_sub_comm p1.x p2.x,
    add_comm (p1.spriteH / 2) (p2.spriteH / 2),
    add_comm (p1.spriteW / 2 * PLAYER_COLLIDER_WIDTH_MULTIPLIER)
      (p2.spriteW / 2 * PLAYER_COLLIDER_WIDTH_MULTIPLIER)]

/-- C5: in a vertical collision between two opposing-team fliers, the kill
selection picks the flier with the strictly lower y-translation whichever
order the event names the pair in; if that flier is not invincible it is
despawned, and the higher flier is never the despawned one. -/
theorem vertical_flier_collision_kills_lower (p1 p2 : PlayerC)
    (hteam : p1.team ≠ p2.team)
    (hw1 : p1.hasWings = true) (hw2 : p2.hasWings = true)
    (htop : one_player_on_top p1 p2 = true)
    (hy : p1.y < p2.y) :
    resolve_attack p1 p2 = AttackResolution.kill p1 p2 ∧
    resolve_attack p2 p1 = AttackResolution.kill p1 p2 ∧
    (p1.invincible = false →
      (players_attack_event p1 p2).despawned = some p1.id ∧
      (players_attack_event p2 p1).despawned = some p1.id) ∧
    (p1.id ≠ p2.id →
      (players_attack_event p1 p2).despawned ≠ some p2.id ∧
      (players_attack_event p2 p1).despawned ≠ some p2.id) := by
  have htop' : one_player_on_top p2 p1 = true := by
    rw [← one_player_on_top_comm]; exact htop
  have h12 : resolve_attack p1 p2 = AttackResolution.kill p1 p2 := by
    unfold resolve_attack
    rw [if_neg hteam, hw1, hw2]
    simp only [htop, if_true]
    rw [if_neg (lt_asymm hy)]
  have h21 : resolve_attack p2 p1 = AttackResolution.kill p1 p2 := by
    unfold resolve_attack
    rw [if_neg (Ne.symm hteam), hw1, hw2]
    simp only [htop', if_true]
    rw [if_pos hy]
  refine ⟨h12, h21, ?_, ?_⟩
  · intro hinv
    constructor <;>
      simp [players_attack_event, h12, h21, kill_effects, hinv]
  · intro hid
    by_cases hinv : p1.invincible <;>
      constructor <;>
        simp [players_attack_event, h12, h21, kill_effects, hinv, hid]

/-- Witness for C5: two concrete opposing queens overlapping vertically,
the Purple one strictly lower: the Purple queen is selected and despawned
in both event orders, the Yellow one never. -/
theorem vertical_flier_collision_kills_lower_witness :
    resolve_attack purpleQueen highYellowQueen =
      AttackResolution.kill purpleQueen highYellowQueen ∧
    resolve_attack highYellowQueen purpleQueen =
      AttackResolution.kill purpleQueen highYellowQueen ∧
    (purpleQueen.invincible = false →
      (players_attack_event purpleQueen highYellowQueen).despawned =
        some purpleQueen.id ∧
      (players_attack_event highYellowQueen purpleQueen).despawned =
        some purpleQueen.id) ∧
    (purpleQueen.id ≠ highYellowQueen.id →
      (players_attack_event purpleQueen highYellowQueen).despawned ≠
        some highYellowQueen.id ∧
      (players_attack_event highYellowQueen purpleQueen).despawned ≠
        some highYellowQueen.id) :=
  vertical_flier_collision_kills_lower purpleQueen highYellowQueen
    (by decide) (by decide) (by decide)
    (by norm_num [one_player_on_top, rabs, purpleQueen, highYellowQueen,
      QUEEN_RENDER_WIDTH, QUEEN_RENDER_HEIGHT,
      PLAYER_COLLIDER_WIDTH_MULTIPLIER])
    (by norm_num [purpleQueen, highYellowQueen])

/-- C6: a horizontal collision between two opposing-team fliers, neither
diving, the left one facing Right and the right one facing Left, kills
nobody and emits exactly two knockback events — Left for the left player,
Right for the right player — in either event order; applying them adds a
horizontal impulse of magnitude PLAYER_FLY_IMPULSE (55), negative for the
left player and positive for the right one. -/
theorem mutual_clash_knockback_no_kill (p1 p2 : PlayerC)
    (hteam : p1.team ≠ p2.team)
    (hw1 : p1.hasWings = true) (hw2 : p2.hasWings = true)
    (htop : one_player_on_top p1 p2 = false)
    (hx : p1.x < p2.x)
    (hd1 : p1.divePressed = false) (hd2 : p2.divePressed = false)
    (hdir1 : p1.dir = Direction.Right) (hdir2 : p2.dir = Direction.Left)
    (hid : p1.id ≠ p2.id) :
    players_attack_event p1 p2 =
      { knockbacks := [{ entity := p1.id, direction := Direction.Left },
                       { entity := p2.id, direction := Direction.Right }] } ∧
    players_attack_event p2 p1 =
      { knockbacks := [{ entity := p1.id, direction := Direction.Left },
                       { entity := p2.id, direction := Direction.Right }] } ∧
    (∀ impulse : Nat → ℚ,
      apply_knockbacks
          [{ entity := p1.id, direction := Direction.Left },
           { entity := p2.id, direction := Direction.Right }] impulse p1.id =
        impulse p1.id - PLAYER_FLY_IMPULSE ∧
      apply_knockbacks
          [{ entity := p1.id, direction := Direction.Left },
           { entity := p2.id, direction := Direction.Right }] impulse p2.id =
        impulse p2.id + PLAYER_FLY_IMPULSE) := by
  have htop' : one_player_on_top p2 p1 = false := by
    rw [← one_player_on_top_comm]; exact htop
  have h12 : resolve_attack p1 p2 =
      AttackResolution.skip
        [{ entity := p1.id, direction := Direction.Left },
         { entity := p2.id, direction := Direction.Right }] := by
    unfold resolve_attack
    rw [if_neg hteam, hw1, hw2]
    simp only [htop, Bool.false_eq_true, if_false]
    simp only [if_pos hx, hd1, hd2, hdir1, hdir2]
  have h21 : resolve_attack p2 p1 =
      AttackResolution.skip
        [{ entity := p1.id, direction := Direction.Left },
         { entity := p2.id, direction := Direction.Right }] := by
    unfold resolve_attack
    rw [if_neg (Ne.symm hteam), hw1, hw2]
    simp only [htop', Bool.false_eq_true, if_false]
    simp only [if_neg (lt_asymm hx), hd1, hd2, hdir1, hdir2]
  refine ⟨by simp [players_attack_event, h12],
    by simp [players_attack_event, h21], ?_⟩
  intro impulse
  constructor <;>
    (simp [apply_knockbacks, hid, Ne.symm hid]; try ring)

/-- Witness for C6: two concrete opposing queens at the same height facing
each other: both event orders yield exactly the two knockback events and
no other effect, and the applied impulses are minus and plus the
fly-impulse constant. -/
theorem mutual_clash_knockback_no_kill_witness :
    players_attack_event purpleQueen rightYellowQueen =
      { knockbacks :=
          [{ entity := purpleQueen.id, direction := Direction.Left },
           { entity := rightYellowQueen.id, direction := Direction.Right }] } ∧
    players_attack_event rightYellowQueen purpleQueen =
      { knockbacks :=
          [{ entity := purpleQueen.id, direction := Direction.Left },
           { entity := rightYellowQueen.id, direction := Direction.Right }] } ∧
    (∀ impulse : Nat → ℚ,
      apply_knockbacks
          [{ entity := purpleQueen.id, direction := Direction.Left },
           { entity := rightYellowQueen.id, direction := Direction.Right }]
          impulse purpleQueen.id =
        impulse purpleQueen.id - PLAYER_FLY_IMPULSE ∧
      apply_knockbacks
          [{ entity := purpleQueen.id, direction := Direction.Left },
           { entity := rightYellowQueen.id, direction := Direction.Right }]
          impulse rightYellowQueen.id =
        impulse rightYellowQueen.id + PLAYER_FLY_IMPULSE) :=
  mutual_clash_knockback_no_kill purpleQueen rightYellowQueen
    (by decide) (by decide) (by decide)
    (by norm_num [one_player_on_top, rabs, purpleQueen, rightYellowQueen,
      QUEEN_RENDER_WIDTH, QUEEN_RENDER_HEIGHT,
      PLAYER_COLLIDER_WIDTH_MULTIPLIER])
    (by norm_num [purpleQueen, rightYellowQueen])
    (by decide) (by decide) (by decide) (by decide) (by decide)

/-- While the accumulated gate time stays strictly below GATE_TIME, ticking
the gate timer only advances the elapsed time and grows the sprite; the
role flags are untouched. -/
theorem progress_gate_timers_run_below (dts : List ℚ) :
    ∀ (p : PlayerC) (e : ℚ), p.gateTimer = some e → 0 ≤ e →
    (∀ dt ∈ dts, 0 ≤ dt) → e + dts.sum < GATE_TIME →
    (progress_gate_timers_run dts p).gateTimer = some (e + dts.sum) ∧
    (progress_gate_timers_run dts p).hasWings = p.hasWings ∧
    (progress_gate_timers_run dts p).hasBerry = p.hasBerry ∧
    (progress_gate_timers_run dts p).isQueen = p.isQueen ∧
    (progress_gate_timers_run dts p).team = p.team := by
  induction dts with
  | nil =>
    intro p e he _ _ _
    simp [progress_gate_timers_run, he]
  | cons dt rest ih =>
    intro p e he he0 hd hs
    have hdt : 0 ≤ dt := hd dt (List.mem_cons_self _ _)
    have hrest : ∀ d ∈ rest, 0 ≤ d := fun d hm =>
      hd d (List.mem_cons_of_mem _ hm)
    have hrsum : 0 ≤ rest.sum := List.sum_nonneg hrest
    have hs' : e + dt + rest.sum < GATE_TIME := by
      rw [List.sum_cons] at hs
      linarith
    have hedt : e + dt < GATE_TIME := by linarith
    have hmin : min (e + dt) GATE_TIME = e + dt :=
      min_eq_left (le_of_lt hedt)
    have hstep : progress_gate_timer dt p =
        { p with gateTimer := some (e + dt)
                 spriteW := lerp WORKER_RENDER_WIDTH QUEEN_RENDER_WIDTH
                   ((e + dt) / GATE_TIME)
                 spriteH := lerp WORKER_RENDER_HEIGHT QUEEN_RENDER_HEIGHT
                   ((e + dt) / GATE_TIME) } := by
      simp only [progress_gate_timer, he, hmin]
      rw [if_neg (not_le.mpr hedt)]
    have hrun : progress_gate_timers_run (dt :: rest) p =
        progress_gate_timers_run rest (progress_gate_timer dt p) := by
      simp [progress_gate_timers_run, List.foldl_cons]
    obtain ⟨h1, h2, h3, h4, h5⟩ :=
      ih (progress_gate_timer dt p) (e + dt) (by rw [hstep])
        (by linarith) hrest hs'
    refine ⟨?_, ?_, ?_, ?_, ?_⟩
    · rw [hrun, h1, List.sum_cons]
      congr 1
      ring
    · rw [hrun, h2, hstep]
    · rw [hrun, h3, hstep]
    · rw [hrun, h4, hstep]
    · rw [hrun, h5, hstep]

/-- C9: a berry-carrying worker that touches a matching (or unclaimed)
gate gets a fresh timer at zero; after any sequence of ticks totalling
less than GATE_TIME, breaking gate contact removes the timer while the
player keeps the worker role (no Wings, no Queen marker) and the berry;
a later touch of a matching gate starts a fresh timer from zero rather
than resuming the lost progress. -/
theorem gate_timer_cancelled_on_early_exit
    (p : PlayerC) (gt gt2 : Option Team) (dts : List ℚ)
    (hwings : p.hasWings = false) (hqueen : p.isQueen = false)
    (hberry : p.hasBerry = true) (htimer : p.gateTimer = none)
    (hmatch : gate_matches gt p.team = true)
    (hd : ∀ dt ∈ dts, 0 ≤ dt) (hs : dts.sum < GATE_TIME) :
    let p1 := (gate_collision_started gt p).2
    let p2 := progress_gate_timers_run dts p1
    let p3 := gate_collision_stopped p2
    p1.gateTimer = some 0 ∧
    p2.gateTimer = some dts.sum ∧
    p3.gateTimer = none ∧ p3.hasWings = false ∧ p3.hasBerry = true ∧
    p3.isQueen = false ∧
    (gate_matches gt2 p3.team = true →
      (gate_collision_started gt2 p3).2.gateTimer = some 0) := by
  intro p1 p2 p3
  have hp1 : p1 = { p with gateTimer := some 0 } := by
    simp only [p1, gate_collision_started, hmatch, htimer, hberry,
      Option.isNone_none, Bool.and_self, if_true]
  obtain ⟨h1, h2, h3, h4, _⟩ :=
    progress_gate_timers_run_below dts p1 0 (by rw [hp1]) le_rfl hd
      (by rw [zero_add]; exact hs)
  have hp2timer : p2.gateTimer = some dts.sum := by
    rw [show p2 = progress_gate_timers_run dts p1 from rfl, h1, zero_add]
  have hp2wings : p2.hasWings = false := by
    rw [show p2 = progress_gate_timers_run dts p1 from rfl, h2, hp1]
    exact hwings
  have hp2berry : p2.hasBerry = true := by
    rw [show p2 = progress_gate_timers_run dts p1 from rfl, h3, hp1]
    exact hberry
  have hp2queen : p2.isQueen = false := by
    rw [show p2 = progress_gate_timers_run dts p1 from rfl, h4, hp1]
    exact hqueen
  have hp3 : p3 = { p2 with gateTimer := none
                            spriteW := WORKER_RENDER_WIDTH
                            spriteH := WORKER_RENDER_HEIGHT } := by
    simp only [p3, gate_collision_stopped, hp2berry, hp2timer,
      Option.isSome_some, Bool.and_self, if_true]
  refine ⟨by rw [hp1], hp2timer, by rw [hp3], by rw [hp3]; exact hp2wings,
    by rw [hp3]; exact hp2berry, by rw [hp3]; exact hp2queen, ?_⟩
  intro hmatch2
  have hmatch2' : gate_matches gt2 p2.team = true := by
    rw [hp3] at hmatch2
    exact hmatch2
  simp only [gate_collision_started, hp3, Option.isNone_none,
    hp2berry, Bool.and_self, if_true]
  rw [if_pos hmatch2']

/-- Witness for C9: the concrete berry worker touches an unclaimed gate,
accumulates half the promotion time, leaves, and touches again: the timer
is fresh at zero and the player is still a berry-carrying worker. -/
theorem gate_timer_cancelled_on_early_exit_witness :
    let p1 := (gate_collision_started none yellowBerryWorker).2
    let p2 := progress_gate_timers_run [(1 / 2 : ℚ)] p1
    let p3 := gate_collision_stopped p2
    p1.gateTimer = some 0 ∧
    p2.gateTimer = some ([(1 / 2 : ℚ)].sum) ∧
    p3.gateTimer = none ∧ p3.hasWings = false ∧ p3.hasBerry = true ∧
    p3.isQueen = false ∧
    (gate_matches none p3.team = true →
      (gate_collision_started none p3).2.gateTimer = some 0) :=
  gate_timer_cancelled_on_early_exit yellowBerryWorker none none
    [(1 / 2 : ℚ)] (by decide) (by decide) (by decide) (by decide)
    (by decide)
    (by intro dt hdt
        rw [List.mem_singleton] at hdt
        rw [hdt]
        norm_num)
    (by rw [List.sum_cons, List.sum_nil, GATE_TIME]; norm_num)

/-- The placed-set mark is one exactly for members. -/
theorem playerMark_eq_one_iff (A : Nat) (l : List Nat) :
    playerMark A l = 1 ↔ A ∈ l := by
  unfold playerMark
  split <;> simp_all

/-- The placed-set mark is at most one. -/
theorem playerMark_le_one (A : Nat) (l : List Nat) : playerMark A l ≤ 1 := by
  unfold playerMark
  split <;> simp

/-- Each candidate ordering adds a player to the placed set exactly when it
records a deposit by that player. -/
theorem put_berries_step_mark (env : BerryTickEnv) (placed : List Nat)
    (c p A : Nat) :
    playerMark A (put_berries_step env placed c p).1 =
      playerMark A placed +
        List.countP (fun d => d.player == A)
          (put_berries_step env placed c p).2.toList := by
  unfold put_berries_step
  cases hc : env.emptyCellTeam c with
  | none => simp
  | some ct =>
    cases hp : env.berryWorkerTeam p with
    | none => simp
    | some pt =>
      by_cases hin : p ∈ placed
      · simp [hin]
      · by_cases ht : ct = pt
        · by_cases hA : A = p
          · subst hA
            simp [hin, ht, playerMark, List.countP_cons, List.countP_nil]
          · simp [hin, ht, playerMark, List.mem_cons, hA,
              List.countP_cons, List.countP_nil, Ne.symm hA]
        · simp [hin, ht]

/-- Event-level version of the mark bookkeeping: both orderings of one
collision pair together add a player to the placed set exactly when the
event records a deposit by that player. -/
theorem put_berries_event_mark (env : BerryTickEnv) (placed : List Nat)
    (e : Nat × Nat) (A : Nat) :
    playerMark A (put_berries_event env placed e).1 =
      playerMark A placed +
        List.countP (fun d => d.player == A)
          (put_berries_event env placed e).2 := by
  unfold put_berries_event
  dsimp only
  rw [List.countP_append]
  have h1 := put_berries_step_mark env placed e.1 e.2 A
  have h2 := put_berries_step_mark env
    (put_berries_step env placed e.1 e.2).1 e.2 e.1 A
  omega

/-- A player already in the placed set stays there through an event. -/
theorem put_berries_event_mem_mono (env : BerryTickEnv) (placed : List Nat)
    (e : Nat × Nat) (a : Nat) (h : a ∈ placed) :
    a ∈ (put_berries_event env placed e).1 := by
  have hm := put_berries_event_mark env placed e a
  have h1 : playerMark a placed = 1 := (playerMark_eq_one_iff a placed).mpr h
  have h2 : playerMark a (put_berries_event env placed e).1 ≤ 1 :=
    playerMark_le_one a _
  exact (playerMark_eq_one_iff a _).mp (by omega)

/-- Fold-level mark bookkeeping: over a whole tick, a player's membership
in the final placed set counts exactly its deposits. -/
theorem put_berries_go_mark (env : BerryTickEnv) (A : Nat) :
    ∀ (evs : List (Nat × Nat)) (placed : List Nat),
    playerMark A (put_berries_placed env placed evs) =
      playerMark A placed +
        List.countP (fun d => d.player == A)
          (put_berries_go env placed evs) := by
  intro evs
  induction evs with
  | nil =>
    intro placed
    simp [put_berries_placed, put_berries_go]
  | cons e rest ih =>
    intro placed
    simp only [put_berries_placed, put_berries_go]
    rw [List.countP_append]
    have h1 := put_berries_event_mark env placed e A
    have h2 := ih (put_berries_event env placed e).1
    omega

/-- A player already in the placed set stays there through the whole
tick. -/
theorem put_berries_placed_mem_mono (env : BerryTickEnv) (a : Nat) :
    ∀ (evs : List (Nat × Nat)) (placed : List Nat), a ∈ placed →
    a ∈ put_berries_placed env placed evs := by
  intro evs
  induction evs with
  | nil =>
    intro placed h
    simpa [put_berries_placed] using h
  | cons e rest ih =>
    intro placed h
    simp only [put_berries_placed]
    exact ih _ (put_berries_event_mem_mono env placed e a h)

/-- The placed set after a concatenation of event lists is the composition
of the two folds. -/
theorem put_berries_placed_append (env : BerryTickEnv) :
    ∀ (l1 l2 : List (Nat × Nat)) (placed : List Nat),
    put_berries_placed env placed (l1 ++ l2) =
      put_berries_placed env (put_berries_placed env placed l1) l2 := by
  intro l1
  induction l1 with
  | nil => intro l2 placed; simp [put_berries_placed]
  | cons e rest ih =>
    intro l2 placed
    simp only [List.cons_append, put_berries_placed]
    exact ih l2 _

/-- Processing an event whose pair is (player, cell) with an empty matching
cell puts the player into the placed set, whether or not it was already
there. -/
theorem put_berries_event_mem_AB (env : BerryTickEnv) (placed : List Nat)
    (A B : Nat) (t : Team)
    (hB : env.emptyCellTeam B = some t)
    (hA : env.berryWorkerTeam A = some t)
    (hAcell : env.emptyCellTeam A = none) :
    A ∈ (put_berries_event env placed (A, B)).1 := by
  unfold put_berries_event
  have hr1 : put_berries_step env placed A B = (placed, none) := by
    unfold put_berries_step
    rw [hAcell]
  simp only [hr1]
  unfold put_berries_step
  rw [hB, hA]
  by_cases hin : A ∈ placed
  · simp [hin]
  · simp [hin]

/-- C7: if both orderings of the same player/cell collision pair appear in
one tick's event stream — in any positions, with any other events around
them — the deposit is processed exactly once for that player in the tick;
for the bare two-event stream the tick's outcome is exactly one deposit
record, which removes the held berry once, fills the cell once, and
increments the team counter by one. -/
theorem deposit_processed_once_per_player (env : BerryTickEnv)
    (A B : Nat) (t : Team) (xs ys zs : List (Nat × Nat))
    (hB : env.emptyCellTeam B = some t)
    (hA : env.berryWorkerTeam A = some t)
    (hAcell : env.emptyCellTeam A = none) :
    List.countP (fun d => d.player == A)
      (put_berries_in_cells env (xs ++ (A, B) :: ys ++ (B, A) :: zs)) = 1 ∧
    put_berries_in_cells env [(A, B), (B, A)] =
      [{ player := A, cell := B, team := t }] := by
  constructor
  · have hsplit : xs ++ (A, B) :: ys ++ (B, A) :: zs =
        (xs ++ [(A, B)]) ++ (ys ++ (B, A) :: zs) := by
      simp
    rw [put_berries_in_cells, hsplit]
    have hmem1 : A ∈ put_berries_placed env [] (xs ++ [(A, B)]) := by
      rw [put_berries_placed_append]
      have : A ∈ (put_berries_event env
          (put_berries_placed env [] xs) (A, B)).1 :=
        put_berries_event_mem_AB env _ A B t hB hA hAcell
      simpa [put_berries_placed] using this
    have hmem : A ∈ put_berries_placed env []
        ((xs ++ [(A, B)]) ++ (ys ++ (B, A) :: zs)) := by
      rw [put_berries_placed_append]
      exact put_berries_placed_mem_mono env A _ _ hmem1
    have hmark := put_berries_go_mark env A
      ((xs ++ [(A, B)]) ++ (ys ++ (B, A) :: zs)) []
    have hone : playerMark A (put_berries_placed env []
        ((xs ++ [(A, B)]) ++ (ys ++ (B, A) :: zs))) = 1 :=
      (playerMark_eq_one_iff A _).mpr hmem
    have hzero : playerMark A ([] : List Nat) = 0 := rfl
    omega
  · simp [put_berries_in_cells, put_berries_go, put_berries_event,
      put_berries_step, put_berries_placed, hB, hA, hAcell]

/-- Witness for C7: in the concrete environment with worker 1 and cell 2 of
the same team, the stream holding both orderings deposits exactly once. -/
theorem deposit_processed_once_per_player_witness :
    List.countP (fun d => d.player == 1)
      (put_berries_in_cells sampleBerryEnv
        ([] ++ (1, 2) :: [] ++ (2, 1) :: [])) = 1 ∧
    put_berries_in_cells sampleBerryEnv [(1, 2), (2, 1)] =
      [{ player := 1, cell := 2, team := Team.Yellow }] :=
  deposit_processed_once_per_player sampleBerryEnv 1 2 Team.Yellow [] [] []
    (by decide) (by decide) (by decide)

/-- Updating a component map changes the value at the key. -/
theorem updateFn_same {α : Type} (f : Nat → α) (k : Nat) (v : α) :
    updateFn f k v k = v := by
  simp [updateFn]

/-- Updating a component map keeps other entities' values. -/
theorem updateFn_other {α : Type} (f : Nat → α) (k n : Nat) (v : α)
    (h : n ≠ k) : updateFn f k v n = f n := by
  simp [updateFn, h]

/-- C10 (counterexample): the rider/ownership invariant is reachable to
break: two workers touching the same unclaimed ship in one tick both pass
the snapshot unclaimed test (the Team insert is deferred) and both board;
when the first rider jumps off, the ship's Team component is removed while
the second rider still references it, so move_ship's unwrapped lookup
fails. -/
theorem move_ship_lookup_can_fail :
    let w0 : ShipWorld :=
      { riders := fun _ => none, shipTeam := fun _ => none }
    let w1 := ShipStep.apply w0
      (ShipStep.board (fun _ => Team.Yellow) [(1, 10), (2, 10)])
    let w2 := ShipStep.apply w1 (ShipStep.jump 1)
    w2.riders 2 = some 10 ∧ w2.shipTeam 10 = none ∧
      ¬ move_ship_lookup_safe w2 := by
  refine ⟨rfl, rfl, ?_⟩
  intro hsafe
  exact hsafe 2 10 rfl rfl

/-- Boarding one worker onto a ship no current rider references preserves
the rider/ownership invariant. -/
theorem ship_rider_inv_board (acc : ShipWorld) (pe se : Nat) (t : Team)
    (hacc : ship_rider_inv acc) (hfree_se : ∀ p, acc.riders p ≠ some se) :
    ship_rider_inv { riders := updateFn acc.riders pe (some se)
                     shipTeam := updateFn acc.shipTeam se (some t) } := by
  constructor
  · intro q s hq
    dsimp only at hq ⊢
    by_cases hqs : q = pe
    · subst hqs
      rw [updateFn_same] at hq
      injection hq with hs
      subst hs
      rw [updateFn_same]
      simp
    · rw [updateFn_other _ _ _ _ hqs] at hq
      by_cases hse : s = se
      · exact absurd hq (hse ▸ hfree_se q)
      · rw [updateFn_other _ _ _ _ hse]
        exact hacc.1 q s hq
  · intro p q s hp hq
    dsimp only at hp hq
    by_cases hps : p = pe <;> by_cases hqs : q = pe
    · rw [hps, hqs]
    · subst hps
      rw [updateFn_same] at hp
      injection hp with hs
      subst hs
      rw [updateFn_other _ _ _ _ hqs] at hq
      exact absurd hq (hfree_se q)
    · subst hqs
      rw [updateFn_same] at hq
      injection hq with hs
      subst hs
      rw [updateFn_other _ _ _ _ hps] at hp
      exact absurd hp (hfree_se p)
    · rw [updateFn_other _ _ _ _ hps] at hp
      rw [updateFn_other _ _ _ _ hqs] at hq
      exact hacc.2 p q s hp hq

/-- Removing a rider together with its ship's ownership preserves the
rider/ownership invariant. -/
theorem ship_rider_inv_removed (w : ShipWorld) (p s : Nat)
    (hinv : ship_rider_inv w) (hr : w.riders p = some s) :
    ship_rider_inv { riders := updateFn w.riders p none
                     shipTeam := updateFn w.shipTeam s none } := by
  constructor
  · intro q s' hq
    dsimp only at hq ⊢
    by_cases hqp : q = p
    · subst hqp
      rw [updateFn_same] at hq
      exact absurd hq (by simp)
    · rw [updateFn_other _ _ _ _ hqp] at hq
      by_cases hss : s' = s
      · subst hss
        exact absurd (hinv.2 q p s' hq hr) hqp
      · rw [updateFn_other _ _ _ _ hss]
        exact hinv.1 q s' hq
  · intro a b s' ha hb
    dsimp only at ha hb
    by_cases hap : a = p
    · subst hap
      rw [updateFn_same] at ha
      exact absurd ha (by simp)
    · by_cases hbp : b = p
      · subst hbp
        rw [updateFn_same] at hb
        exact absurd hb (by simp)
      · rw [updateFn_other _ _ _ _ hap] at ha
        rw [updateFn_other _ _ _ _ hbp] at hb
        exact hinv.2 a b s' ha hb

/-- Clearing the rider component of a player who is not riding preserves
the rider/ownership invariant. -/
theorem ship_rider_inv_unrider (w : ShipWorld) (p : Nat)
    (hinv : ship_rider_inv w) :
    ship_rider_inv { riders := updateFn w.riders p none
                     shipTeam := w.shipTeam } := by
  constructor
  · intro q s' hq
    dsimp only at hq ⊢
    by_cases hqp : q = p
    · subst hqp
      rw [updateFn_same] at hq
      exact absurd hq (by simp)
    · rw [updateFn_other _ _ _ _ hqp] at hq
      exact hinv.1 q s' hq
  · intro a b s' ha hb
    dsimp only at ha hb
    by_cases hap : a = p
    · subst hap
      rw [updateFn_same] at ha
      exact absurd ha (by simp)
    · by_cases hbp : b = p
      · subst hbp
        rw [updateFn_same] at hb
        exact absurd hb (by simp)
      · rw [updateFn_other _ _ _ _ hap] at ha
        rw [updateFn_other _ _ _ _ hbp] at hb
        exact hinv.2 a b s' ha hb

/-- Processing a tick of boarding events preserves the rider/ownership
invariant, provided the tick's events touch pairwise distinct ships and no
event's snapshot-unclaimed ship is already ridden. -/
theorem get_on_ship_go_inv (teamOf : Nat → Team)
    (snapshot : Nat → Option Team) :
    ∀ (evs : List (Nat × Nat)) (acc : ShipWorld),
    ship_rider_inv acc →
    (∀ e ∈ evs, snapshot e.2 = none → ∀ p, acc.riders p ≠ some e.2) →
    evs.Pairwise (fun a b => a.2 ≠ b.2) →
    ship_rider_inv (get_on_ship_go teamOf snapshot acc evs) := by
  intro evs
  induction evs with
  | nil =>
    intro acc hacc _ _
    simpa [get_on_ship_go] using hacc
  | cons ev rest ih =>
    intro acc hacc hfree hpair
    rw [List.pairwise_cons] at hpair
    obtain ⟨hne, hpair_rest⟩ := hpair
    by_cases hsnap : snapshot ev.2 = none
    · simp only [get_on_ship_go, if_pos hsnap]
      apply ih
      · exact ship_rider_inv_board acc ev.1 ev.2 (teamOf ev.1) hacc
          (fun p => hfree ev (List.mem_cons_self _ _) hsnap p)
      · intro e he hsnape p
        dsimp only
        by_cases hps : p = ev.1
        · subst hps
          rw [updateFn_same]
          intro hcontra
          injection hcontra with hs
          exact hne e he hs
        · rw [updateFn_other _ _ _ _ hps]
          exact hfree e (List.mem_cons_of_mem _ he) hsnape p
      · exact hpair_rest
    · simp only [get_on_ship_go, if_neg hsnap]
      apply ih acc hacc ?_ hpair_rest
      intro e he hsnape p
      exact hfree e (List.mem_cons_of_mem _ he) hsnape p

/-- C10 (amended): each call site does add and remove rider attachment and
ship ownership together, so every single transition of the ship subsystem —
a boarding tick whose events touch pairwise distinct ships, a jump-off, or
a rider removal — preserves the invariant that every rider references a
team-owning (and always-alive) ship and no two riders share one; in any
state reachable under that single-boarding restriction, move_ship's
unwrapped ship lookup therefore succeeds.  Without the restriction the
invariant is breakable (see the counterexample). -/
theorem ship_rider_invariant_preserved (w : ShipWorld) (step : ShipStep)
    (hinv : ship_rider_inv w) (hstep : step.distinctShips) :
    ship_rider_inv (ShipStep.apply w step) ∧
      move_ship_lookup_safe (ShipStep.apply w step) := by
  have main : ship_rider_inv (ShipStep.apply w step) := by
    cases step with
    | board teamOf evs =>
      apply get_on_ship_go_inv teamOf w.shipTeam evs w hinv ?_ hstep
      intro e _ hsnap p hcontra
      exact hinv.1 p e.2 hcontra hsnap
    | jump p =>
      simp only [ShipStep.apply, jump_off_ship]
      cases hr : w.riders p with
      | none => exact hinv
      | some s => exact ship_rider_inv_removed w p s hinv hr
    | remove p =>
      simp only [ShipStep.apply, remove_player_ship]
      cases hr : w.riders p with
      | none => exact ship_rider_inv_unrider w p hinv
      | some s => exact ship_rider_inv_removed w p s hinv hr
  exact ⟨main, main.1⟩

/-- Witness for the amended C10: a boarding tick of two workers onto two
distinct unclaimed ships, from the empty world, preserves the invariant
and keeps move_ship's lookup safe. -/
theorem ship_rider_invariant_preserved_witness :
    ship_rider_inv (ShipStep.apply
      { riders := fun _ => none, shipTeam := fun _ => none }
      (ShipStep.board (fun _ => Team.Yellow) [(1, 10), (2, 11)])) ∧
    move_ship_lookup_safe (ShipStep.apply
      { riders := fun _ => none, shipTeam := fun _ => none }
      (ShipStep.board (fun _ => Team.Yellow) [(1, 10), (2, 11)])) :=
  ship_rider_invariant_preserved
    { riders := fun _ => none, shipTeam := fun _ => none }
    (ShipStep.board (fun _ => Team.Yellow) [(1, 10), (2, 11)])
    ⟨fun _ s h => absurd h (by simp), fun _ _ s hp _ => absurd hp (by simp)⟩
    (by simp [ShipStep.distinctShips, List.pairwise_cons])

end KillerQueen
